import Mathlib

/-!
Verification development for the EVUA Python migration pipeline.

The definitions below are shallow embeddings of the pure cores of the
repository's functions:
  * `utils/docker_utils.py`            (sandbox executor with local fallback)
  * `stages/stage3_dynamic.py`         (`compare_runs`, differential comparison)
  * `stages/stage4_repair.py`          (`attempt_repairs` and its strategies)
  * `engine/repair_loop.py`            (`run_repair_loop`)
  * `stages/stage0_preprocess.py`      (legacy-print rewriting of `safe_replace_tokens`)
  * `stages/stage1_structural.py`      (`apply_custom_fixers`)
  * `languages/python/pipeline.py`     (`run_pipeline` stage sequencing / failure handling)

External effects (subprocess runs, the filesystem, `ast.parse`) are made
explicit: execution outcomes become oracle parameters, fallible code returns
`Option`, and Python text manipulation is re-implemented on `List Char`.
-/

/-! ## Python text primitives (modelling `str` methods used by the code) -/

/-- The characters Python's `str.strip()` / `\s` treat as whitespace
(ASCII fragment: space, tab, newline, carriage return, vertical tab, form feed). -/
def isPySpace (c : Char) : Bool :=
  c = ' ' || c = '\t' || c = '\n' || c = '\r' || c = Char.ofNat 11 || c = Char.ofNat 12

/-- Python `str.rstrip()` on a character list. -/
def rstripL (l : List Char) : List Char :=
  (l.reverse.dropWhile isPySpace).reverse

/-- Python `str.strip()` on a character list. -/
def stripL (l : List Char) : List Char :=
  rstripL (l.dropWhile isPySpace)

/-- Python `str.strip()`. -/
def pystrip (s : String) : String := ⟨stripL s.data⟩

/-- Python's substring test `pat in s` (for non-empty patterns). -/
def containsSub (s pat : List Char) : Bool :=
  match s with
  | [] => pat.isEmpty
  | _ :: tl => pat.isPrefixOf s || containsSub tl pat

/-- Python `s in t` at `String` level. -/
def pyContains (s pat : String) : Bool := containsSub s.data pat.data

/-- One fuel-indexed step of Python's `str.replace` (non-overlapping,
left to right, every occurrence). `fuel ≥ s.length` makes it total. -/
def replaceFuel : Nat → List Char → List Char → List Char → List Char
  | 0, s, _, _ => s
  | _ + 1, [], _, _ => []
  | fuel + 1, c :: tl, pat, rep =>
    if pat ≠ [] ∧ pat.isPrefixOf (c :: tl) then
      rep ++ replaceFuel fuel ((c :: tl).drop pat.length) pat rep
    else
      c :: replaceFuel fuel tl pat rep

/-- Python `str.replace` on character lists. -/
def replaceAllL (s pat rep : List Char) : List Char :=
  replaceFuel s.length s pat rep

/-- Python `str.replace` at `String` level. -/
def pyReplace (s pat rep : String) : String := ⟨replaceAllL s.data pat.data rep.data⟩

/-- Python `str.endswith` for a one-character suffix. -/
def endsWithChar (l : List Char) (c : Char) : Bool :=
  match l.reverse with
  | [] => false
  | x :: _ => x = c

/-- `file.readlines()` / `str.split` keeping the `'\n'` terminators:
splits a character list into lines, each retaining its trailing newline. -/
def splitKeepNlAux (c : Char) (acc : List (List Char)) : List (List Char) :=
  if c = '\n' then [c] :: acc
  else
    match acc with
    | [] => [[c]]
    | h :: t => (c :: h) :: t

/-- `file.readlines()` on a character list. -/
def splitKeepNl (s : List Char) : List (List Char) :=
  s.foldr splitKeepNlAux []

/-! ## `utils/docker_utils.py` -/

/-- `RunResult` from `utils/docker_utils.py`. -/
structure RunResult where
  stdout : String
  stderr : String
  exit_code : Int
deriving DecidableEq, Repr

/-- Outcome of one `subprocess.run` invocation, as seen by
`run_command_in_container`: normal completion with captured streams,
a `subprocess.TimeoutExpired`, or any other raised exception. -/
inductive ExecOutcome where
  | completed (stdout stderr : String) (code : Int)
  | timeout
  | errored (msg : String)
deriving DecidableEq, Repr

/-- `run_command_in_container` from `utils/docker_utils.py`.
`docker_available` is the result of `_docker_available()`; `outcome` is the
behaviour of the underlying `subprocess.run` call.  `none` models an
exception escaping the function (in the Docker branch only
`TimeoutExpired` is caught). -/
def run_command_in_container (docker_available : Bool) (outcome : ExecOutcome) :
    Option RunResult :=
  if ¬ docker_available then
    -- local fallback branch
    match outcome with
    | .completed out err code =>
      -- stdout = proc.stdout.strip() or "local fallback executed"
      some ⟨if pystrip out = "" then "local fallback executed" else pystrip out,
            pystrip err, code⟩
    | .timeout => some ⟨"", "TimeoutExpired", -1⟩
    | .errored msg => some ⟨"local fallback executed", msg, 1⟩
  else
    match outcome with
    | .completed out err code => some ⟨pystrip out, pystrip err, code⟩
    | .timeout => some ⟨"", "TimeoutExpired", -1⟩
    | .errored _ => none

/-! ## `stages/stage3_dynamic.py` : differential comparison

The harness prints `json.dumps(results)`, so `json.loads` yields either a
JSON object (a Python `dict`) or some other JSON value.  `JVal` models the
JSON values stored under the object's keys (floats are not modelled; the
nesting needed by the claims is flat).  The parser itself (`json.loads`)
is external, so `compare_runs` takes it as an oracle
`parse : String → Option JTop`, `none` meaning `json.JSONDecodeError`. -/

/-- A JSON value as produced by `json.loads` (fragment sufficient for the
harness output: null / booleans / integers / strings). -/
inductive JVal where
  | null
  | bool (b : Bool)
  | int (n : Int)
  | str (s : String)
deriving DecidableEq, Repr

/-- A top-level `json.loads` result: a JSON object (`dict`) or another value. -/
inductive JTop where
  | dict (fields : List (String × JVal))
  | prim (v : JVal)
deriving DecidableEq, Repr

/-- Python's `d.get(k)` on a dict parsed from JSON: the stored value, or
`None` (i.e. JSON `null`) when the key is absent. -/
def pyGet (d : List (String × JVal)) (k : String) : JVal :=
  (d.lookup k).getD JVal.null

/-- Python `==` on two dicts (order-insensitive): same key set and, key by
key, equal stored values (`Option` distinguishes an absent key from a
stored `null`, exactly as Python does). -/
def dictEq (d2 d3 : List (String × JVal)) : Bool :=
  ((d2.map Prod.fst ++ d3.map Prod.fst).dedup).all
    (fun k => d2.lookup k == d3.lookup k)

/-- Python `==` on two `json.loads` results (`out2 == out3`). -/
def jtopEq : JTop → JTop → Bool
  | .dict d2, .dict d3 => dictEq d2 d3
  | .prim v2, .prim v3 => v2 == v3
  | _, _ => false

/-- The keys of the diff dict built by `compare_runs`:
`{k : ... for k in set(out2) | set(out3) if out2.get(k) != out3.get(k)}`
(the union is enumerated in first-occurrence order). -/
def diffKeys (d2 d3 : List (String × JVal)) : List String :=
  ((d2.map Prod.fst ++ d3.map Prod.fst).dedup).filter
    (fun k => !(pyGet d2 k == pyGet d3 k))

/-- Rendering of one JSON value inside the diff (abstraction of
`json.dumps`; the exact text is irrelevant to every claim). -/
def jvalDump : JVal → String
  | .null => "null"
  | .bool b => if b then "true" else "false"
  | .int n => toString n
  | .str s => s

/-- Abstraction of `json.dumps(diff, indent=2)`: one `key: (old, new)`
line per mismatched key. -/
def dumpsDiff (d2 d3 : List (String × JVal)) : String :=
  String.intercalate "\n"
    ((diffKeys d2 d3).map
      (fun k => k ++ ": (" ++ jvalDump (pyGet d2 k) ++ ", " ++ jvalDump (pyGet d3 k) ++ ")"))

/-- `ComparisonResult` from `stages/stage3_dynamic.py`
(`match` is a Lean keyword, hence the field name `matchb`). -/
structure ComparisonResult where
  matchb : Bool
  details : String
deriving DecidableEq, Repr

/-- `compare_runs` from `stages/stage3_dynamic.py`.  `parse` is the external
`json.loads` (`none` = `JSONDecodeError`).  The result is `none` when the
Python code would raise: with two parsed, unequal, non-dict outputs the diff
comprehension hits `TypeError`/`AttributeError`. -/
def compare_runs (parse : String → Option JTop) (py2_result py3_result : RunResult) :
    Option ComparisonResult :=
  let s1 := pystrip py2_result.stdout
  let s2 := pystrip py3_result.stdout
  if s1 = "" ∨ s2 = "" then
    some ⟨false, "Empty or invalid output"⟩
  else
    match parse s1, parse s2 with
    | some out2, some out3 =>
      if jtopEq out2 out3 then
        some ⟨true, "All outputs match"⟩
      else
        match out2, out3 with
        | .dict d2, .dict d3 => some ⟨false, dumpsDiff d2 d3⟩
        | _, _ => none
    | _, _ => some ⟨s1 = s2, "Non-JSON textual comparison"⟩

/-- A concrete `json.loads` oracle for witnesses: fails on every input
(e.g. the inputs below are not valid JSON). -/
def jsonLoadsFail : String → Option JTop := fun _ => none

/-! ## `stages/stage4_repair.py` : repair strategies

The four strategies are pure `str → str` functions; `attempt_repairs`
additionally reads/writes the unit's file, which the embedding makes
explicit by threading the content.  `difflib.unified_diff` is external and
modelled by `diff_text` below. -/

/-- `_wrap_iterables` from `stages/stage4_repair.py`. -/
def wrap_iterables (src : String) : String :=
  if pyContains src "map(" && !pyContains src "list(" then
    pyReplace src "map(" "list(map(" ++ ")"
  else src

/-- `_fix_division` from `stages/stage4_repair.py`. -/
def fix_division (src : String) : String :=
  if pyContains src "/" && !pyContains src "//" then
    pyReplace src "/" "/ 1.0*"
  else src

/-- `_explicit_str_cast` from `stages/stage4_repair.py`. -/
def explicit_str_cast (src : String) : String :=
  if pyContains src "print(" && !pyContains src "str(" then
    pyReplace src "print(" "print(str(" ++ ")"
  else src

/-- `_encode_decode_fix` from `stages/stage4_repair.py`. -/
def encode_decode_fix (src : String) : String :=
  if !pyContains src ".decode(" && !pyContains src ".encode(" && pyContains src "\x27utf" then
    pyReplace src "\x27utf" ".encode(\x27utf"
  else src

/-- Python `str.splitlines()` (newline-terminated lines, terminators dropped). -/
def splitlinesL (s : List Char) : List (List Char) :=
  s.foldr
    (fun c acc =>
      if c = '\n' then [] :: acc
      else match acc with
        | [] => [[c]]
        | h :: t => (c :: h) :: t)
    []

/-- Model of `_diff_text` (the newline-join of `difflib.unified_diff` over
`a.splitlines()` / `b.splitlines()`): empty exactly when the two line
sequences coincide, otherwise a non-empty header block (whose precise text
no claim depends on). -/
def diff_text (a b : String) : String :=
  if splitlinesL a.data = splitlinesL b.data then "" else "--- \n+++ \n@@"

namespace stage4_repair

/-- `ComparisonResult` from `stages/stage4_repair.py` (the repair stage's
own dataclass, distinct from the one in `stage3_dynamic.py`). -/
structure ComparisonResult where
  file_path : String
  py2_output : String
  py3_output : String
  matchb : Bool
  diff : String
deriving DecidableEq, Repr

end stage4_repair

/-- `RepairAttempt` from `stages/stage4_repair.py`. -/
structure RepairAttempt where
  strategy : String
  success : Bool
  diff_after : String
deriving DecidableEq, Repr

/-- `RepairAttempts` from `stages/stage4_repair.py` (the per-file metadata). -/
structure RepairAttempts where
  file_path : String
  applied : List RepairAttempt
  repaired : Bool
deriving DecidableEq, Repr

/-- The ordered strategy catalog of `attempt_repairs`. -/
def strategies : List (String × (String → String)) :=
  [("wrap_iterables", wrap_iterables),
   ("safe_division", fix_division),
   ("explicit_str_cast", explicit_str_cast),
   ("encode_decode_fix", encode_decode_fix)]

/-- The local `max_attempts = 3` of `attempt_repairs`, used to slice the
catalog (`strategies[:max_attempts]`). -/
def repair_max_attempts : Nat := 3

/-- The strategy loop of `attempt_repairs`.  `diff_after` / `success` are
the loop's (iteration-independent) comparison of the report's recorded
outputs; returns the applied attempts, the `repaired` flag and the final
file content. -/
def attemptGo (diff_after : String) (success : Bool) :
    List (String × (String → String)) → String → List RepairAttempt × Bool × String
  | [], src => ([], false, src)
  | (name, f) :: rest, src =>
    let new_src := f src
    if new_src = src then
      attemptGo diff_after success rest src      -- no change: strategy skipped
    else if success then
      ([⟨name, success, diff_after⟩], true, new_src)   -- break
    else
      let r := attemptGo diff_after success rest new_src  -- forward-only chaining
      (⟨name, success, diff_after⟩ :: r.1, r.2.1, r.2.2)

/-- `attempt_repairs` from `stages/stage4_repair.py`, with the file system
made explicit: `src` is the unit's current content, and the second
component of the result is the content left on disk.
In the source, `success = diff_after.strip() == ""` where
`diff_after = _diff_text(file_report.py2_output, file_report.py3_output)`
is recomputed identically in every iteration; it is hoisted here. -/
def attempt_repairs (file_report : stage4_repair.ComparisonResult) (src : String) :
    RepairAttempts × String :=
  let diff_after := diff_text file_report.py2_output file_report.py3_output
  let success := pystrip diff_after == ""
  let r := attemptGo diff_after success (strategies.take repair_max_attempts) src
  (⟨file_report.file_path, r.1, r.2.1⟩, r.2.2)

/-- First strategy of a catalog whose application changes `src`
(the selection rule the spec describes). -/
def firstChanging (cat : List (String × (String → String))) (src : String) :
    Option String :=
  (cat.find? (fun p => !(p.2 src == src))).map Prod.fst

/-! ## `engine/repair_loop.py`

`run_repair_loop` interleaves filesystem reads, `attempt_repairs` and a
Docker-backed `dynamic_verify`; the embedding keeps the loop's own control
flow and accounting and treats the environment as oracles:
`reports k` is the content of `diff_reports/*_diff.json` as read at the
start of attempt `k`, and `rep k f` the `repaired` flag `attempt_repairs`
returns for file `f` during attempt `k`. -/

/-- One persisted diff report, as read back by the loop
(`{"file": ..., "match": ...}`). -/
structure DiffReport where
  file : String
  matchb : Bool
deriving DecidableEq, Repr

/-- `RepairSummary` from `engine/repair_loop.py` (`reports_dir`, a constant
path, is omitted). -/
structure RepairSummary where
  total_files : Nat
  repaired : Nat
  still_failing : Nat
  attempts : Nat
deriving DecidableEq, Repr

/-- The `for attempt_idx in range(1, max_attempts + 1)` loop of
`run_repair_loop`.  `fuel` is the number of iterations still allowed after
the current one; on normal exhaustion `attempts` is the last loop index,
on `break` the index at which the failing set was empty. -/
def repairLoopGo (reports : Nat → List DiffReport) (rep : Nat → String → Bool) :
    Nat → Nat → Nat → Nat → Nat → RepairSummary
  | attempt_idx, fuel, total, repaired, still_failing =>
    let failing := ((reports attempt_idx).filter (fun d => !d.matchb)).map DiffReport.file
    if failing.isEmpty then
      ⟨total, repaired, still_failing, attempt_idx⟩    -- break: all fixed
    else
      let total := failing.length
      let repaired := repaired + (failing.filter (fun f => rep attempt_idx f)).length
      let still_failing :=
        still_failing + (failing.filter (fun f => !rep attempt_idx f)).length
      match fuel with
      | 0 => ⟨total, repaired, still_failing, attempt_idx⟩
      | fuel' + 1 => repairLoopGo reports rep (attempt_idx + 1) fuel' total repaired still_failing

/-- `run_repair_loop` from `engine/repair_loop.py`.  `none` models an
escaping exception: the explicit `FileNotFoundError` when `diff_reports/`
is missing, and the `UnboundLocalError` on `attempt_idx` when
`max_attempts < 1` makes `range(1, max_attempts + 1)` empty. -/
def run_repair_loop (diff_dir_exists : Bool) (reports : Nat → List DiffReport)
    (rep : Nat → String → Bool) (max_attempts : Int) : Option RepairSummary :=
  if ¬ diff_dir_exists then none
  else if max_attempts < 1 then none
  else some (repairLoopGo reports rep 1 (max_attempts - 1).toNat 0 0 0)

/-! ## `stages/stage0_preprocess.py` : legacy `print` rewriting

`safe_replace_tokens` walks `new_code.split('\n')` line by line; the loop
body (lines 40-62) is embedded below on `List Char`. -/

/-- `re.match(r'^\s*print\s*\(', line)`: a line already in call form. -/
def printCallSkip (l : List Char) : Bool :=
  let rest := l.dropWhile isPySpace
  "print".data.isPrefixOf rest && ((rest.drop 5).dropWhile isPySpace).head? == some '('

/-- `re.match(r'^\s*print\s*$', line)`: a bare `print` line. -/
def printBareSkip (l : List Char) : Bool :=
  let rest := l.dropWhile isPySpace
  "print".data.isPrefixOf rest && ((rest.drop 5).dropWhile isPySpace).isEmpty

/-- `re.match(r'^(\s*)print\s+(?!\()(.+)$', line)`, returning
`(indent, content)` = `(group(1), group(2))`.  The greedy `\s+` is modelled
by the maximal whitespace run; this coincides with the regex whenever the
call-skip pattern above did not match (the only situation in which the
regex engine would backtrack `\s+`), which is exactly how the source
guards this match. -/
def printStmtMatch (l : List Char) : Option (List Char × List Char) :=
  let indent := l.takeWhile isPySpace
  let rest := l.dropWhile isPySpace
  if "print".data.isPrefixOf rest then
    let after := rest.drop 5
    let sp := after.takeWhile isPySpace
    let content := after.dropWhile isPySpace
    if sp ≠ [] ∧ content ≠ [] ∧ content.head? ≠ some '(' then
      some (indent, content)
    else none
  else none

/-- The per-line body of the print-fixing loop in `safe_replace_tokens`
(`stages/stage0_preprocess.py`, lines 40-62). -/
def fix_print_line (l : List Char) : List Char :=
  if printCallSkip l || printBareSkip l then l
  else
    match printStmtMatch l with
    | none => l
    | some (indent, content0) =>
      let content := rstripL content0        -- match.group(2).rstrip()
      if endsWithChar content ',' then
        indent ++ "print(".data ++ rstripL content.dropLast ++ ", end=\x27 \x27)".data
      else
        indent ++ "print(".data ++ content ++ ")".data

/-- Python `str.split('\n')`. -/
def splitOnNl (s : List Char) : List (List Char) :=
  s.foldr
    (fun c acc =>
      if c = '\n' then [] :: acc
      else match acc with
        | [] => [[c]]
        | h :: t => (c :: h) :: t)
    [[]]

/-- The whole print-fixing pass of `safe_replace_tokens`
(`'\n'.join` of the fixed lines). -/
def fix_print_statements (code : List Char) : List Char :=
  List.intercalate ['\n'] ((splitOnNl code).map fix_print_line)

/-! ## `stages/stage1_structural.py` : `apply_custom_fixers` -/

/-- `re.sub(r"(\d+)L", r"\1", line)` with fuel (≥ the list's length):
every maximal digit run followed by `L` loses the `L`. -/
def subIntLFuel : Nat → List Char → List Char
  | 0, s => s
  | _ + 1, [] => []
  | fuel + 1, c :: tl =>
    if c.isDigit then
      let ds := (c :: tl).takeWhile Char.isDigit
      let rest := (c :: tl).dropWhile Char.isDigit
      match rest with
      | 'L' :: tl2 => ds ++ subIntLFuel fuel tl2
      | _ => ds ++ subIntLFuel fuel rest
    else c :: subIntLFuel fuel tl

/-- `re.sub(r"(\d+)L", r"\1", line)`. -/
def subIntL (l : List Char) : List Char := subIntLFuel l.length l

/-- The per-line body of `apply_custom_fixers`
(`stages/stage1_structural.py`, lines 23-41): the `print >>` textual fix
followed by the long-literal fix. -/
def fixCustomLine (line : List Char) : List Char :=
  let line1 :=
    if containsSub line "print >>".data then
      let l2 := replaceAllL line "print >>".data "print(".data
      if !endsWithChar (rstripL l2) ')' then rstripL l2 ++ ")\n".data else l2
    else line
  if containsSub line1 ['L'] then
    let new_line := subIntL line1
    if new_line ≠ line1 then new_line else line1
  else line1

/-- `apply_custom_fixers` from `stages/stage1_structural.py`, with the file
system explicit: maps the line fix over `readlines()` and re-joins. -/
def apply_custom_fixers (content : List Char) : List Char :=
  ((splitKeepNl content).map fixCustomLine).flatten

/-! ## A decidable necessary condition for CPython parseability

`ast.parse` is external.  `pyLexOk` models the tokenizer-level acceptance
of CPython on the fragment of sources whose string literals are single-line
`'...'` / `"..."` literals and which contain no comments and no triple
quotes: an unterminated string literal, a newline inside a string literal,
or an unbalanced/mismatched bracket makes `ast.parse` raise `SyntaxError`,
so on this fragment `pyLexOk code = false` implies the code does not parse. -/
def pyLexOk : List Char → Option Char → List Char → Bool
  | [], none, stack => stack.isEmpty
  | [], some _, _ => false
  | c :: tl, some q, stack =>
    if c = Char.ofNat 92 then       -- backslash: escape consumes next char
      match tl with
      | [] => false
      | _ :: tl2 => pyLexOk tl2 (some q) stack
    else if c = q then pyLexOk tl none stack
    else if c = '\n' then false     -- newline inside a single-line literal
    else pyLexOk tl (some q) stack
  | c :: tl, none, stack =>
    if c = '"' || c = Char.ofNat 39 then pyLexOk tl (some c) stack
    else if c = '(' || c = '[' || c = Char.ofNat 123 then pyLexOk tl none (c :: stack)
    else if c = ')' then
      match stack with
      | '(' :: st => pyLexOk tl none st
      | _ => false
    else if c = ']' then
      match stack with
      | '[' :: st => pyLexOk tl none st
      | _ => false
    else if c = Char.ofNat 125 then
      match stack with
      | b :: st => if b = Char.ofNat 123 then pyLexOk tl none st else false
      | [] => false
    else pyLexOk tl none stack

/-- Lexical well-formedness of a whole unit (see `pyLexOk`). -/
def pyLexes (code : List Char) : Bool := pyLexOk code none []

/-! ## `languages/python/pipeline.py` : stage sequencing and failure handling

`run_pipeline` wraps the fixed stage sequence in one `try`.  Each stage
body performs I/O, so it is modelled by an oracle
`oc : String → StageOut` giving, per stage name, either normal completion
or an escaping exception with its `str(e)`.  The model records exactly the
metadata and ordering facts the claims are about: the per-stage `ok`
records appended to `metadata["stages"]` (append-only, hence "artifacts
preserved"), which stage bodies began executing, and which stage
`final_output/` mirrors (`copy_stage_output` runs after each completed
stage). -/

/-- Outcome of one stage body. -/
inductive StageOut where
  | ok
  | err (msg : String)
deriving DecidableEq, Repr

/-- Model of `traceback.format_exc()`: the non-empty formatted trace for an
exception whose `str` is `msg`. -/
def format_exc (msg : String) : String :=
  "Traceback (most recent call last):\n" ++ msg

/-- The stage sequence of `run_pipeline` (`pipeline.py`). -/
def stageNames : List String :=
  ["stage0_preprocess", "stage1_structural", "stage2_semantic", "stage3_dynamic"]

/-- What `run_pipeline` leaves behind. -/
structure PipelineResult where
  status : String
  error : Option String
  traceback : Option String
  stagesOk : List String          -- metadata["stages"], all entries "ok"
  executed : List String          -- stage bodies that began executing
  final_output_of : Option String -- the stage final_output/ mirrors
  metadata_written : Bool         -- metadata.json persisted
deriving DecidableEq, Repr

/-- Last element of `l`, defaulting to `fo`. -/
def lastD (fo : Option String) (l : List String) : Option String :=
  l.foldl (fun _ x => some x) fo

/-- The `try` block of `run_pipeline`: run the remaining stages in order;
on the first escaping exception record failure metadata and stop. -/
def pipeGo (oc : String → StageOut) :
    List String → Option String → List String → List String → PipelineResult
  | [], fo, sOk, ex =>
    ⟨"completed", none, none, sOk, ex, fo, true⟩
  | n :: rest, fo, sOk, ex =>
    match oc n with
    | .ok => pipeGo oc rest (some n) (sOk ++ [n]) (ex ++ [n])
    | .err e =>
      ⟨"failed", some e, some (format_exc e), sOk, ex ++ [n], fo, true⟩

/-- `run_pipeline` from `languages/python/pipeline.py` (metadata written
unconditionally after the `try`/`except`). -/
def run_pipeline (oc : String → StageOut) : PipelineResult :=
  pipeGo oc stageNames none [] []

/-! ## Concrete oracles used by counterexamples and witnesses -/

/-- A concrete `json.loads` oracle: `"A"` parses to the empty JSON object,
`"B"` to `{"k": null}`, everything else fails. -/
def jsonLoadsAB : String → Option JTop :=
  fun s =>
    if s = "A" then some (.dict [])
    else if s = "B" then some (.dict [("k", JVal.null)])
    else none

/-- The `ComparisonResult` that `run_repair_loop` hands to
`attempt_repairs` (py2/py3 outputs are the placeholder `"unknown"`). -/
def report_unknown : stage4_repair.ComparisonResult :=
  ⟨"f.py", "unknown", "unknown", false, ""⟩

/-- A concrete stage-outcome oracle: `stage1_structural` raises with
message `"boom"`, everything else completes. -/
def ocBoom : String → StageOut :=
  fun m => if m = "stage1_structural" then .err "boom" else .ok

/-! ## Helper lemmas -/

theorem lookup_eq_none_of_not_mem (k : String) (d : List (String × JVal))
    (h : k ∉ d.map Prod.fst) : d.lookup k = none := by
  induction d with
  | nil => rfl
  | cons p tl ih =>
    simp only [List.map_cons, List.mem_cons] at h
    push_neg at h
    simp only [List.lookup]
    have hb : (k == p.1) = false := by simp [h.1]
    rw [hb]
    exact ih h.2

theorem optJVal_beq_symm (a b : Option JVal) : (a == b) = (b == a) := by
  rcases eq_or_ne a b with h | h
  · subst h; rfl
  · rw [beq_eq_false_iff_ne.mpr h, beq_eq_false_iff_ne.mpr (Ne.symm h)]

theorem jval_beq_symm (a b : JVal) : (a == b) = (b == a) := by
  rcases eq_or_ne a b with h | h
  · subst h; rfl
  · rw [beq_eq_false_iff_ne.mpr h, beq_eq_false_iff_ne.mpr (Ne.symm h)]

theorem dictEq_symm (d2 d3 : List (String × JVal)) : dictEq d2 d3 = dictEq d3 d2 := by
  unfold dictEq
  rw [Bool.eq_iff_iff]
  simp only [List.all_eq_true, List.mem_dedup, List.mem_append]
  constructor
  · intro h k hk
    rw [optJVal_beq_symm]
    exact h k (Or.symm hk)
  · intro h k hk
    rw [optJVal_beq_symm]
    exact h k (Or.symm hk)

theorem jtopEq_symm (o2 o3 : JTop) : jtopEq o2 o3 = jtopEq o3 o2 := by
  cases o2 <;> cases o3 <;> simp only [jtopEq]
  · exact dictEq_symm _ _
  · exact jval_beq_symm _ _

/-- The match verdict of `compare_runs` is symmetric in its two runs. -/
theorem compare_runs_matchb_comm (parse : String → Option JTop) (r1 r2 : RunResult) :
    (compare_runs parse r1 r2).map ComparisonResult.matchb
      = (compare_runs parse r2 r1).map ComparisonResult.matchb := by
  unfold compare_runs
  by_cases h1 : pystrip r1.stdout = "" <;> by_cases h2 : pystrip r2.stdout = ""
  · simp [h1, h2]
  · simp [h1, h2]
  · simp [h1, h2]
  · simp only [h1, h2,
      if_neg (by simp [h1, h2] : ¬(pystrip r1.stdout = "" ∨ pystrip r2.stdout = "")),
      if_neg (by simp [h1, h2] : ¬(pystrip r2.stdout = "" ∨ pystrip r1.stdout = ""))]
    rcases hp1 : parse (pystrip r1.stdout) with _ | o1 <;>
      rcases hp2 : parse (pystrip r2.stdout) with _ | o2
    · simp [eq_comm]
    · simp [eq_comm]
    · simp [eq_comm]
    · by_cases he : jtopEq o1 o2 = true
      · have he2 : jtopEq o2 o1 = true := by rw [jtopEq_symm]; exact he
        simp [he, he2]
      · have he2 : ¬ jtopEq o2 o1 = true := by rw [jtopEq_symm]; exact he
        simp only [he, he2, if_false]
        cases o1 <;> cases o2 <;> simp

/-- The diff keys are exactly the keys whose `.get`-values (missing ↦ `None`,
i.e. JSON `null`) differ. -/
theorem diffKeys_iff (d2 d3 : List (String × JVal)) (k : String) :
    k ∈ diffKeys d2 d3 ↔ pyGet d2 k ≠ pyGet d3 k := by
  unfold diffKeys
  rw [List.mem_filter]
  simp only [List.mem_dedup, List.mem_append, Bool.not_eq_eq_eq_not, Bool.not_true,
    beq_eq_false_iff_ne, ne_eq]
  constructor
  · exact fun h => h.2
  · intro h
    refine ⟨?_, h⟩
    by_contra hmem
    push_neg at hmem
    have h2 := lookup_eq_none_of_not_mem k d2 hmem.1
    have h3 := lookup_eq_none_of_not_mem k d3 hmem.2
    exact h (by simp [pyGet, h2, h3])

theorem repairLoopGo_attempts_le (reports : Nat → List DiffReport) (rep : Nat → String → Bool) :
    ∀ (fuel attempt_idx total repaired still_failing : Nat),
      (repairLoopGo reports rep attempt_idx fuel total repaired still_failing).attempts
        ≤ attempt_idx + fuel := by
  intro fuel
  induction fuel with
  | zero =>
    intro idx t r f
    unfold repairLoopGo
    split
    · dsimp only
      split <;> simp
    · rename_i heq
      exact absurd heq (by omega)
  | succ fuel ih =>
    intro idx t r f
    unfold repairLoopGo
    split
    · rename_i heq
      exact absurd heq (by omega)
    · rename_i fuel2 heq
      have hf : fuel2 = fuel := by omega
      subst hf
      dsimp only
      split
      · simp
      · exact le_trans (ih (idx + 1) _ _ _) (by omega)

/-- Every attempt recorded by the strategy loop carries the loop's fixed
`success` flag. -/
theorem attemptGo_success (d : String) (s : Bool) :
    ∀ (cat : List (String × (String → String))) (src : String) (a : RepairAttempt),
      a ∈ (attemptGo d s cat src).1 → a.success = s := by
  intro cat
  induction cat with
  | nil => intro src a ha; simp [attemptGo] at ha
  | cons p rest ih =>
    intro src a ha
    obtain ⟨name, f⟩ := p
    unfold attemptGo at ha
    by_cases hch : f src = src
    · rw [if_pos hch] at ha
      exact ih src a ha
    · rw [if_neg hch] at ha
      cases s with
      | true => simp at ha; rw [ha]
      | false =>
        simp at ha
        rcases ha with ha | ha
        · rw [ha]
        · exact ih _ a ha

/-- The first attempt the strategy loop records is the first catalog entry
whose application changes the content. -/
theorem attemptGo_head (d : String) (s : Bool) :
    ∀ (cat : List (String × (String → String))) (src : String),
      ((attemptGo d s cat src).1.head?).map RepairAttempt.strategy = firstChanging cat src := by
  intro cat
  induction cat with
  | nil => intro src; rfl
  | cons p rest ih =>
    intro src
    obtain ⟨name, f⟩ := p
    unfold attemptGo firstChanging
    by_cases hch : f src = src
    · rw [if_pos hch]
      rw [List.find?_cons_of_neg]
      · exact ih src
      · simp [hch]
    · rw [if_neg hch]
      rw [List.find?_cons_of_pos]
      · cases s <;> simp
      · simp [hch]

/-- Running the stage sequence with an all-`ok` prefix followed by a
failing stage produces exactly the failure metadata. -/
theorem pipeGo_first_failure (oc : String → StageOut) (n : String) (e : String)
    (post : List String) :
    ∀ (pre : List String), (∀ m ∈ pre, oc m = .ok) → oc n = .err e →
      ∀ (fo : Option String) (sOk ex : List String),
        pipeGo oc (pre ++ n :: post) fo sOk ex
          = ⟨"failed", some e, some (format_exc e), sOk ++ pre, ex ++ pre ++ [n],
             lastD fo pre, true⟩ := by
  intro pre
  induction pre with
  | nil =>
    intro _ hn fo sOk ex
    simp only [List.nil_append, pipeGo, hn, lastD, List.foldl_nil, List.append_nil]
  | cons m pre ih =>
    intro hpre hn fo sOk ex
    have hm : oc m = .ok := hpre m (by simp)
    simp only [List.cons_append, pipeGo, hm, List.append_eq]
    rw [ih (fun x hx => hpre x (by simp [hx])) hn]
    simp [lastD, List.append_assoc]

theorem flatten_splitKeepNl : ∀ s : List Char, (splitKeepNl s).flatten = s := by
  intro s
  induction s with
  | nil => rfl
  | cons c tl ih =>
    show (splitKeepNlAux c (splitKeepNl tl)).flatten = c :: tl
    unfold splitKeepNlAux
    by_cases hc : c = '\n'
    · subst hc
      simp [ih]
    · rw [if_neg hc]
      match hsp : splitKeepNl tl with
      | [] =>
        have : tl = [] := by rw [← ih, hsp]; rfl
        simp [this]
      | h :: t =>
        simp only [List.flatten_cons]
        have h2 : (h :: t).flatten = tl := by rw [← hsp, ih]
        simp only [List.flatten_cons] at h2
        simp [← h2]

theorem fixCustomLine_noop (l : List Char)
    (h1 : containsSub l "print >>".data = false) (h2 : subIntL l = l) :
    fixCustomLine l = l := by
  unfold fixCustomLine
  rw [h1]
  simp only [Bool.false_eq_true, if_false]
  by_cases hL : containsSub l ['L'] = true
  · rw [if_pos hL, h2]
    simp
  · rw [if_neg hL]

theorem dropWhile_append_of_all (p : Char → Bool) :
    ∀ (a b : List Char), (∀ x ∈ a, p x = true) → (a ++ b).dropWhile p = b.dropWhile p := by
  intro a
  induction a with
  | nil => intro b _; rfl
  | cons x tl ih =>
    intro b h
    rw [List.cons_append, List.dropWhile_cons_of_pos (h x (by simp))]
    exact ih b (fun y hy => h y (by simp [hy]))

theorem takeWhile_append_of_all (p : Char → Bool) :
    ∀ (a b : List Char), (∀ x ∈ a, p x = true) →
      (a ++ b).takeWhile p = a ++ b.takeWhile p := by
  intro a
  induction a with
  | nil => intro b _; rfl
  | cons x tl ih =>
    intro b h
    rw [List.cons_append, List.takeWhile_cons_of_pos (h x (by simp)), List.cons_append,
      ih b (fun y hy => h y (by simp [hy]))]

theorem isPrefixOf_append_self : ∀ (l t : List Char), l.isPrefixOf (l ++ t) = true := by
  intro l t
  induction l with
  | nil => simp [List.isPrefixOf]
  | cons x tl ih => simp [List.isPrefixOf, ih]

/-! ## Claims -/

/-- C1 counterexample: `compare_runs`'s diff does not contain "exactly the
keys whose values differ (a key missing on one side or bound to different
values)".  With outputs `{}` and `{"k": null}` the two JSON objects differ
(the key `"k"` is missing on one side), yet `d.get(k)` maps the missing key
to `None` = JSON `null`, so the diff is empty and in particular omits
`"k"`. -/
theorem compare_runs_diff_omits_missing_null_key :
    jtopEq (JTop.dict []) (JTop.dict [("k", JVal.null)]) = false
    ∧ List.lookup "k" ([] : List (String × JVal)) = none
    ∧ ("k", JVal.null) ∈ [("k", JVal.null)]
    ∧ diffKeys [] [("k", JVal.null)] = []
    ∧ compare_runs jsonLoadsAB ⟨"A", "", 0⟩ ⟨"B", "", 0⟩ = some ⟨false, ""⟩ := by
  decide

/-- C1 (amended): `compare_runs` is symmetric in its match verdict, and the
diff contains exactly the keys whose `.get`-values differ, where a missing
key counts as `None`/`null` — so a key missing on one side and bound to
`null` on the other is not reported. -/
theorem compare_runs_symm_and_diffKeys :
    (∀ (parse : String → Option JTop) (r1 r2 : RunResult),
        (compare_runs parse r1 r2).map ComparisonResult.matchb
          = (compare_runs parse r2 r1).map ComparisonResult.matchb)
    ∧ (∀ (d2 d3 : List (String × JVal)) (k : String),
        k ∈ diffKeys d2 d3 ↔ pyGet d2 k ≠ pyGet d3 k) :=
  ⟨compare_runs_matchb_comm, diffKeys_iff⟩

/-- C2 counterexample: `attempt_repairs` records a `RepairAttempt` with
`success = true` (because the diff of the input report's recorded outputs,
here `"unknown"` vs `"unknown"` as supplied by `run_repair_loop`, is
empty), while the unit's next differential verification can perfectly well
report `match = false` — e.g. when both re-runs time out. -/
theorem repair_attempt_success_without_matching_verification :
    (attempt_repairs report_unknown "y = map(f, xs)\n").1.applied
      = [⟨"wrap_iterables", true, ""⟩]
    ∧ (attempt_repairs report_unknown "y = map(f, xs)\n").1.repaired = true
    ∧ compare_runs jsonLoadsFail ⟨"", "TimeoutExpired", -1⟩ ⟨"", "TimeoutExpired", -1⟩
        = some ⟨false, "Empty or invalid output"⟩ := by
  decide

/-- C2 (amended): `RepairAttempt.success` records only whether the unified
diff of the *input* report's recorded py2/py3 outputs strips to empty;
re-verification is not consulted, so `success = true` carries no guarantee
about the unit's next `VerificationReport`. -/
theorem repair_attempt_success_iff_stale_diff_empty
    (report : stage4_repair.ComparisonResult) (src : String)
    (a : RepairAttempt) (ha : a ∈ (attempt_repairs report src).1.applied) :
    a.success = (pystrip (diff_text report.py2_output report.py3_output) == "") :=
  attemptGo_success _ _ _ src a ha

/-- C2 witness: the amended theorem applied to the recorded
`wrap_iterables` attempt of the counterexample run. -/
theorem repair_attempt_success_iff_stale_diff_empty_witness :
    (⟨"wrap_iterables", true, ""⟩ : RepairAttempt)
        ∈ (attempt_repairs report_unknown "y = map(f, xs)\n").1.applied
    ∧ (⟨"wrap_iterables", true, ""⟩ : RepairAttempt).success
        = (pystrip (diff_text report_unknown.py2_output report_unknown.py3_output) == "") :=
  ⟨by decide,
   repair_attempt_success_iff_stale_diff_empty report_unknown "y = map(f, xs)\n" _ (by decide)⟩

/-- C3: `run_repair_loop` terminates for every input (it is a total
function of its oracles), and whenever it returns a `RepairSummary` — i.e.
whenever no exception escapes — `attempts ≤ max_attempts`. -/
theorem run_repair_loop_attempts_le_max (diff_dir_exists : Bool)
    (reports : Nat → List DiffReport) (rep : Nat → String → Bool)
    (max_attempts : Int) (s : RepairSummary)
    (h : run_repair_loop diff_dir_exists reports rep max_attempts = some s) :
    (s.attempts : Int) ≤ max_attempts := by
  unfold run_repair_loop at h
  split at h
  · exact absurd h (by simp)
  · split at h
    · exact absurd h (by simp)
    · rename_i h1 h2
      have hs : repairLoopGo reports rep 1 (max_attempts - 1).toNat 0 0 0 = s :=
        Option.some.inj h
      have hb := repairLoopGo_attempts_le reports rep (max_attempts - 1).toNat 1 0 0 0
      rw [hs] at hb
      omega

/-- C3 witness: a run with no failing reports stops after one attempt. -/
theorem run_repair_loop_attempts_le_max_witness :
    run_repair_loop true (fun _ => []) (fun _ _ => false) 3 = some ⟨0, 0, 0, 1⟩
    ∧ (((⟨0, 0, 0, 1⟩ : RepairSummary).attempts : Int) ≤ 3) :=
  ⟨by decide,
   run_repair_loop_attempts_le_max true (fun _ => []) (fun _ _ => false) 3 ⟨0, 0, 0, 1⟩ (by decide)⟩

/-- C4 counterexample: the fourth catalog strategy (`encode_decode_fix`,
the explicit text-encoding fix) would change the unit
`x = 'utf-8'` while the first three leave it unchanged, yet
`strategies[:max_attempts]` with `max_attempts = 3` drops it, so no
strategy is applied at all — contradicting "the first strategy from the
ordered four-strategy catalog whose application actually changes the
content". -/
theorem encode_decode_strategy_unreachable :
    encode_decode_fix "x = \x27utf-8\x27\n" ≠ "x = \x27utf-8\x27\n"
    ∧ wrap_iterables "x = \x27utf-8\x27\n" = "x = \x27utf-8\x27\n"
    ∧ fix_division "x = \x27utf-8\x27\n" = "x = \x27utf-8\x27\n"
    ∧ explicit_str_cast "x = \x27utf-8\x27\n" = "x = \x27utf-8\x27\n"
    ∧ (attempt_repairs report_unknown "x = \x27utf-8\x27\n").1.applied = [] := by
  decide

/-- C4 (amended): for every still-failing unit the repair step applies the
first strategy *among the first three entries* of the four-strategy catalog
(the slice `strategies[:3]` makes the encoding strategy unreachable) whose
application changes the content, and a no-op strategy is never recorded:
the head of `applied` is exactly `firstChanging` of the truncated catalog
(`none` on both sides when every considered strategy is a no-op). -/
theorem attempt_repairs_applies_first_changing_of_first_three
    (report : stage4_repair.ComparisonResult) (src : String) :
    ((attempt_repairs report src).1.applied.head?).map RepairAttempt.strategy
      = firstChanging (strategies.take repair_max_attempts) src :=
  attemptGo_head _ _ _ src

/-- C5: a timed-out execution yields the structured
`RunResult("", "TimeoutExpired", -1)` in both the sandbox and the fallback
branch (no exception escapes, no hang: the embedding is total), and
comparing it — on either side — always produces `match = false`. -/
theorem timeout_yields_structured_mismatch (docker_available : Bool)
    (parse : String → Option JTop) (r : RunResult) :
    run_command_in_container docker_available .timeout = some ⟨"", "TimeoutExpired", -1⟩
    ∧ (compare_runs parse ⟨"", "TimeoutExpired", -1⟩ r).map ComparisonResult.matchb
        = some false
    ∧ (compare_runs parse r ⟨"", "TimeoutExpired", -1⟩).map ComparisonResult.matchb
        = some false := by
  refine ⟨?_, ?_, ?_⟩
  · cases docker_available <;> rfl
  · unfold compare_runs
    dsimp only
    rw [if_pos (Or.inl (show pystrip "" = "" from rfl))]
    rfl
  · unfold compare_runs
    dsimp only
    rw [if_pos (Or.inr (show pystrip "" = "" from rfl))]
    rfl

/-- C6 counterexample: the local fallback does not return "the command's
actual captured stdout" — an execution completing with empty stdout, and
any execution raising an exception, both get the fabricated stdout
`"local fallback executed"`; two genuinely different failing runs (distinct
exception messages) then compare equal (`match = true`). -/
theorem local_fallback_fabricates_matching_outputs :
    run_command_in_container false (.completed "" "exit 0, no output" 0)
      = some ⟨"local fallback executed", "exit 0, no output", 0⟩
    ∧ run_command_in_container false (.errored "error A")
      = some ⟨"local fallback executed", "error A", 1⟩
    ∧ run_command_in_container false (.errored "error B")
      = some ⟨"local fallback executed", "error B", 1⟩
    ∧ compare_runs jsonLoadsFail ⟨"local fallback executed", "error A", 1⟩
        ⟨"local fallback executed", "error B", 1⟩
      = some ⟨true, "Non-JSON textual comparison"⟩ := by
  decide

/-- C6 (amended): when Docker is unavailable the executor always returns a
structured `RunResult` (never raises), preserving the actual stderr and
exit code; the actual stripped stdout is preserved when non-empty, but the
placeholder `"local fallback executed"` is substituted when stdout strips
to empty or the local run raises — so the fallback can fabricate output
that makes two different runs compare equal. -/
theorem local_fallback_structured_result (outcome : ExecOutcome)
    (out err : String) (code : Int) (msg : String) :
    (run_command_in_container false outcome).isSome = true
    ∧ (pystrip out ≠ "" →
        run_command_in_container false (.completed out err code)
          = some ⟨pystrip out, pystrip err, code⟩)
    ∧ (pystrip out = "" →
        run_command_in_container false (.completed out err code)
          = some ⟨"local fallback executed", pystrip err, code⟩)
    ∧ run_command_in_container false (.errored msg)
      = some ⟨"local fallback executed", msg, 1⟩ := by
  refine ⟨?_, ?_, ?_, rfl⟩
  · cases outcome <;> rfl
  · intro h
    simp [run_command_in_container, h]
  · intro h
    simp [run_command_in_container, h]

/-- C6 witness: the amended theorem applied to a run with non-empty stdout
and to one with whitespace-only stdout. -/
theorem local_fallback_structured_result_witness :
    (pystrip "ok" ≠ ""
      → run_command_in_container false (.completed "ok" "w" 2) = some ⟨"ok", "w", 2⟩)
    ∧ (pystrip " " = ""
      → run_command_in_container false (.completed " " "w" 2)
          = some ⟨"local fallback executed", "w", 2⟩)
    ∧ run_command_in_container false (.completed "ok" "w" 2) = some ⟨"ok", "w", 2⟩ :=
  ⟨(local_fallback_structured_result .timeout "ok" "w" 2 "m").2.1,
   (local_fallback_structured_result .timeout " " "w" 2 "m").2.2.1,
   (local_fallback_structured_result .timeout "ok" "w" 2 "m").2.1 (by decide)⟩

/-- C7 counterexample: an exception whose `str(e)` is empty (e.g.
`raise ValueError()`) escaping the first stage leaves
`metadata.json.status == "failed"` but an *empty* `error` field — the
claimed "non-empty error" does not hold for every escaping exception. -/
theorem pipeline_failure_error_field_can_be_empty :
    (run_pipeline (fun _ => .err "")).status = "failed"
    ∧ (run_pipeline (fun _ => .err "")).error = some ""
    ∧ (run_pipeline (fun _ => .err "")).metadata_written = true := by
  decide

/-- C7 (amended): when the pipeline's first failing stage raises with
message `e`, the persisted metadata has `status = "failed"`, `error` equal
to the exception message (empty exactly when the message is empty) and an
always non-empty traceback; the stage records of the completed prefix are
preserved, no stage after the failing one executes, and `final_output/`
mirrors the last successfully completed stage. -/
theorem run_pipeline_first_failure_metadata (oc : String → StageOut)
    (pre post : List String) (n e : String)
    (hseq : stageNames = pre ++ n :: post)
    (hpre : ∀ m ∈ pre, oc m = .ok) (hn : oc n = .err e) :
    run_pipeline oc
      = ⟨"failed", some e, some (format_exc e), pre, pre ++ [n], lastD none pre, true⟩
    ∧ format_exc e ≠ "" := by
  constructor
  · unfold run_pipeline
    rw [hseq, pipeGo_first_failure oc n e post pre hpre hn]
    simp
  · intro hempty
    have hlen := congrArg String.length hempty
    unfold format_exc at hlen
    rw [String.length_append] at hlen
    simp at hlen
    exact absurd hlen.1 (by decide)

/-- C7 witness: the amended theorem applied to a run whose second stage
raises `"boom"`: preprocessing completed, later stages never run,
`final_output/` mirrors `stage0_preprocess`. -/
theorem run_pipeline_first_failure_metadata_witness :
    stageNames = ["stage0_preprocess"] ++ "stage1_structural"
        :: ["stage2_semantic", "stage3_dynamic"]
    ∧ run_pipeline ocBoom
      = ⟨"failed", some "boom", some (format_exc "boom"), ["stage0_preprocess"],
         ["stage0_preprocess"] ++ ["stage1_structural"],
         lastD none ["stage0_preprocess"], true⟩
    ∧ format_exc "boom" ≠ "" :=
  ⟨by decide,
   (run_pipeline_first_failure_metadata ocBoom ["stage0_preprocess"]
      ["stage2_semantic", "stage3_dynamic"] "stage1_structural" "boom"
      (by decide) (by decide) (by decide)).1,
   (run_pipeline_first_failure_metadata ocBoom ["stage0_preprocess"]
      ["stage2_semantic", "stage3_dynamic"] "stage1_structural" "boom"
      (by decide) (by decide) (by decide)).2⟩

/-- C8 counterexample: the structural stage's custom fixer performs no
parse check. The unit `s = "print >> here"` is lexically well formed (a
plain string assignment, which CPython parses), but `apply_custom_fixers`
rewrites the text *inside the string literal* and appends a closing
parenthesis after it, producing `s = "print( here")` — an unbalanced `)`
at top level, which CPython rejects: parseability is not monotone. -/
theorem apply_custom_fixers_breaks_parseability :
    pyLexes "s = \x22print >> here\x22\n".data = true
    ∧ apply_custom_fixers "s = \x22print >> here\x22\n".data
        = "s = \x22print( here\x22)\n".data
    ∧ pyLexes "s = \x22print( here\x22)\n".data = false := by
  decide

/-- C8 (amended): no rollback mechanism exists; what does hold is that a
unit none of whose lines contains `print >>` and on which the long-literal
substitution is a no-op passes through `apply_custom_fixers` unchanged —
and only for such units is parseability trivially preserved. -/
theorem apply_custom_fixers_noop_preserves_content (content : List Char)
    (h : ∀ l ∈ splitKeepNl content,
      containsSub l "print >>".data = false ∧ subIntL l = l) :
    apply_custom_fixers content = content := by
  unfold apply_custom_fixers
  have hmap : (splitKeepNl content).map fixCustomLine = splitKeepNl content := by
    conv_rhs => rw [← List.map_id (splitKeepNl content)]
    exact List.map_congr_left (fun l hl => fixCustomLine_noop l (h l hl).1 (h l hl).2)
  rw [hmap, flatten_splitKeepNl]

/-- C8 witness: a clean two-line unit is left untouched. -/
theorem apply_custom_fixers_noop_preserves_content_witness :
    (∀ l ∈ splitKeepNl "x = 1\ny = x + 2\n".data,
      containsSub l "print >>".data = false ∧ subIntL l = l)
    ∧ apply_custom_fixers "x = 1\ny = x + 2\n".data = "x = 1\ny = x + 2\n".data :=
  ⟨by decide, apply_custom_fixers_noop_preserves_content _ (by decide)⟩

/-- C9: a legacy print line `<indent>print<spaces><content>` whose content
(after right-stripping) ends in a comma is rewritten to
`<indent>print(<content minus the comma>, end=' ')` — call syntax with the
explicit terminator argument `end=' '`, i.e. the single-space no-newline
semantics of the legacy trailing comma. -/
theorem fix_print_line_trailing_comma (ind sp btl : List Char) (c : Char)
    (hind : ∀ x ∈ ind, isPySpace x = true)
    (hsp : ∀ x ∈ sp, isPySpace x = true) (hsp0 : sp ≠ [])
    (hc : isPySpace c = false) (hcp : c ≠ '(')
    (hcomma : endsWithChar (rstripL (c :: btl)) ',' = true) :
    fix_print_line (ind ++ "print".data ++ sp ++ c :: btl)
      = ind ++ "print(".data ++ rstripL (rstripL (c :: btl)).dropLast
        ++ ", end=\x27 \x27)".data := by
  have hpd : "print".data = 'p' :: "rint".data := rfl
  have hnp : isPySpace 'p' = false := by decide
  have hrest : List.dropWhile isPySpace (ind ++ ("print".data ++ (sp ++ c :: btl)))
      = "print".data ++ (sp ++ c :: btl) := by
    rw [dropWhile_append_of_all isPySpace ind _ hind, hpd, List.cons_append,
      List.dropWhile_cons_of_neg (by simp [hnp]), ← List.cons_append, ← hpd]
  have htake : List.takeWhile isPySpace (ind ++ ("print".data ++ (sp ++ c :: btl))) = ind := by
    rw [takeWhile_append_of_all isPySpace ind _ hind, hpd, List.cons_append,
      List.takeWhile_cons_of_neg (by simp [hnp]), List.append_nil]
  have hdrop5 : ("print".data ++ (sp ++ c :: btl)).drop 5 = sp ++ c :: btl := by
    have h5 : "print".data.length = 5 := rfl
    rw [← h5, List.drop_left]
  have hsptake : (sp ++ c :: btl).takeWhile isPySpace = sp := by
    rw [takeWhile_append_of_all isPySpace sp _ hsp,
      List.takeWhile_cons_of_neg (by simp [hc]), List.append_nil]
  have hspdrop : (sp ++ c :: btl).dropWhile isPySpace = c :: btl := by
    rw [dropWhile_append_of_all isPySpace sp _ hsp,
      List.dropWhile_cons_of_neg (by simp [hc])]
  have hskip1 : printCallSkip (ind ++ ("print".data ++ (sp ++ c :: btl))) = false := by
    unfold printCallSkip
    rw [hrest]
    dsimp only
    rw [hdrop5, hspdrop]
    simp [hcp]
  have hskip2 : printBareSkip (ind ++ ("print".data ++ (sp ++ c :: btl))) = false := by
    unfold printBareSkip
    rw [hrest]
    dsimp only
    rw [hdrop5, hspdrop]
    simp
  have hmatch : printStmtMatch (ind ++ ("print".data ++ (sp ++ c :: btl)))
      = some (ind, c :: btl) := by
    unfold printStmtMatch
    rw [hrest, htake]
    dsimp only
    rw [if_pos (isPrefixOf_append_self _ _), hdrop5, hsptake, hspdrop]
    rw [if_pos ⟨hsp0, by simp, by simp [hcp]⟩]
  simp only [List.append_assoc]
  unfold fix_print_line
  rw [hskip1, hskip2]
  simp only [Bool.false_eq_true, Bool.or_self, if_false, hmatch]
  rw [if_pos hcomma]
  simp only [List.append_assoc]

/-- C9 witness: the theorem applied to the line `print x,`, producing
`print(x, end=' ')`. -/
theorem fix_print_line_trailing_comma_witness :
    (([' '] : List Char) ≠ [])
    ∧ fix_print_line ([] ++ "print".data ++ [' '] ++ 'x' :: [','])
        = [] ++ "print(".data ++ rstripL (rstripL ('x' :: [','])).dropLast
          ++ ", end=\x27 \x27)".data :=
  ⟨by decide,
   fix_print_line_trailing_comma [] [' '] [','] 'x'
     (by decide) (by decide) (by decide) (by decide) (by decide) (by decide)⟩

/-- C10: whenever either run's stdout strips to empty, `compare_runs`
reports a mismatch with detail `"Empty or invalid output"` — in particular
two runs that both produce empty (hence identical) output are a mismatch,
never a match. -/
theorem compare_runs_empty_output_mismatch (parse : String → Option JTop)
    (py2_result py3_result : RunResult)
    (h : pystrip py2_result.stdout = "" ∨ pystrip py3_result.stdout = "") :
    compare_runs parse py2_result py3_result
      = some ⟨false, "Empty or invalid output"⟩ := by
  unfold compare_runs
  rw [if_pos h]

/-- C10 witness: two runs with empty stdout are reported as a mismatch. -/
theorem compare_runs_empty_output_mismatch_witness :
    (pystrip "" = "" ∨ pystrip "" = "")
    ∧ compare_runs jsonLoadsFail ⟨"", "", 0⟩ ⟨"", "", 0⟩
        = some ⟨false, "Empty or invalid output"⟩ :=
  ⟨Or.inl rfl,
   compare_runs_empty_output_mismatch jsonLoadsFail ⟨"", "", 0⟩ ⟨"", "", 0⟩ (Or.inl rfl)⟩
